import Mathlib

/-!
Verification of the message-intake core of the netflix-home-auto-confirm
repository: the Gmail message decoder and link extractor
(src/gmail_client.py) and the intake cycle / poll scheduler
(src/main.py, src/tray_app.py).

The Python source is shallow-embedded: dictionaries coming from the Gmail
API become explicit record/tree types, external collaborators
(HTML parser, byte-to-text decoding, the Playwright confirmation actor,
the attachment fetch of the Mailbox Gateway) become function parameters,
and the observable side effects of one intake cycle (link extraction
calls, confirmation-action invocations, mark-as-read attempts, the
LAST_OPENED_LINK environment variable, the result-record write attempt)
are collected in the returned record.
-/

namespace NetflixConfirm

/-- Python truthiness for an optional string: a missing value and the
empty string are both falsy (models code like `if data:` in
src/gmail_client.py). -/
def pyTruthy : Option String → Option String
  | some "" => none
  | x => x

/-- Numeric value of a decimal digit character, if it is one. -/
def digitVal (c : Char) : Option Nat :=
  if '0' ≤ c ∧ c ≤ '9' then some (c.toNat - 48) else none

/-- Accumulate a decimal natural number from a digit list; any non-digit
makes the parse fail. -/
def parseNatAux : List Char → Nat → Option Nat
  | [], acc => some acc
  | c :: cs, acc =>
    match digitVal c with
    | some d => parseNatAux cs (acc * 10 + d)
    | none => none

/-- Model of Python `int(s)` on the decimal string forms the Gmail API
produces for `internalDate` (optional sign followed by digits); any
other string fails, modelling the ValueError branch. -/
def pyParseInt (s : String) : Option Int :=
  match s.data with
  | [] => none
  | '-' :: cs =>
    if cs = [] then none else (parseNatAux cs 0).map (fun n => -(n : Int))
  | '+' :: cs =>
    if cs = [] then none else (parseNatAux cs 0).map (fun n => (n : Int))
  | cs => (parseNatAux cs 0).map (fun n => (n : Int))

/-- Model of the `internalDate` handling in src/main.py process_once:
`int(msg.get('internalDate'))` with TypeError (missing value) and
ValueError (unparseable string) both mapped to 0. -/
def parse_internal_date : Option String → Int
  | none => 0
  | some s => (pyParseInt s).getD 0

/-- Value of one base64url alphabet character (RFC 4648 URL-safe
alphabet, as used by Python base64.urlsafe_b64decode). -/
def b64Val (c : Char) : Option Nat :=
  if 'A' ≤ c ∧ c ≤ 'Z' then some (c.toNat - 65)
  else if 'a' ≤ c ∧ c ≤ 'z' then some (c.toNat - 97 + 26)
  else if '0' ≤ c ∧ c ≤ '9' then some (c.toNat - 48 + 52)
  else if c = '-' then some 62
  else if c = '_' then some 63
  else none

/-- Regroup a list of 6-bit values into 8-bit bytes (the core of base64
decoding). -/
def b64chunk : List Nat → List Nat
  | a :: b :: c :: d :: rest =>
    (a * 4 + b / 16) :: ((b % 16) * 16 + c / 4) :: ((c % 4) * 64 + d) :: b64chunk rest
  | [a, b] => [a * 4 + b / 16]
  | [a, b, c] => [a * 4 + b / 16, (b % 16) * 16 + c / 4]
  | _ => []

/-- Model of Python `base64.urlsafe_b64decode` on well-formed
(correctly padded) input: padding is stripped and the 6-bit values are
regrouped into bytes. Caveat: this function is total, while the Python
function raises binascii.Error when the input length is not a multiple
of 4 (e.g. on "aGk"), an error nothing in _gather_parts catches; so
theorems and concrete inputs in this development only ever apply it to
data whose length is a multiple of 4, where the two agree. -/
def urlsafe_b64decode (s : String) : List Nat :=
  b64chunk ((s.data.filter (fun c => c ≠ '=')).filterMap b64Val)

/-- The `body` dictionary of a Gmail API message part: optional inline
base64url data and optional attachment reference. A `none` body models
a missing or empty (falsy) body dictionary. -/
structure MsgBody where
  data : Option String
  attachmentId : Option String

mutual

/-- A Gmail API message payload node: content type, optional body, and
child parts (`payload['parts']`, empty when the key is absent). -/
inductive MimePayload : Type where
  | mk : String → Option MsgBody → PayloadList → MimePayload

/-- List of child payload nodes (mutual with MimePayload so that the
decoder can be defined by structural recursion). -/
inductive PayloadList : Type where
  | nil : PayloadList
  | cons : MimePayload → PayloadList → PayloadList

end

def MimePayload.mimeType : MimePayload → String
  | .mk m _ _ => m

def MimePayload.body : MimePayload → Option MsgBody
  | .mk _ b _ => b

def MimePayload.parts : MimePayload → PayloadList
  | .mk _ _ ps => ps

/-- Model of the `add_part` helper inside GmailWatcher._gather_parts
(src/gmail_client.py): inline data is base64url-decoded and appended;
otherwise, when an attachment id and a message id are present, the
attachment is fetched through the gateway (`fetchAtt`; `none` models an
HttpError or an empty data field) and its data is decoded; any failure
yields nothing. The `elif attachment_id and message_id:` guard is
modelled by requiring `message_id` to be present; a present-but-empty
message id (falsy in Python, truthy here as `some ""`) never occurs,
since Gmail message ids are non-empty and no theorem instantiates
one. -/
def add_part (fetchAtt : String → Option String) (message_id : Option String)
    (mime : String) (body : MsgBody) : List (String × List Nat) :=
  match pyTruthy body.data with
  | some d => [(mime, urlsafe_b64decode d)]
  | none =>
    match pyTruthy body.attachmentId, message_id with
    | some aid, some _ =>
      match pyTruthy (fetchAtt aid) with
      | some d => [(mime, urlsafe_b64decode d)]
      | none => []
    | _, _ => []

mutual

/-- Model of GmailWatcher._gather_parts (src/gmail_client.py): when the
node has children, iterate over them (gather_children); otherwise decode
the node's own body. An empty payload dictionary corresponds to
`.mk "" none .nil` and yields nothing, like the `if not payload` guard. -/
def gather_parts (fetchAtt : String → Option String) (mid : Option String) :
    MimePayload → List (String × List Nat)
  | .mk mime body ps =>
    match ps with
    | .nil =>
      match body with
      | some b => add_part fetchAtt mid mime b
      | none => []
    | .cons p rest => gather_children fetchAtt mid (.cons p rest)

/-- The per-child loop of _gather_parts: for each child, first its own
body is added (the `if body: add_part(mime, body)` line), then the
recursive result of _gather_parts on the child is appended
(`parts.extend(self._gather_parts(p, message_id))`). -/
def gather_children (fetchAtt : String → Option String) (mid : Option String) :
    PayloadList → List (String × List Nat)
  | .nil => []
  | .cons p ps =>
    (match p.body with
     | some b => add_part fetchAtt mid p.mimeType b
     | none => []) ++ gather_parts fetchAtt mid p ++ gather_children fetchAtt mid ps

end

mutual

/-- The decoder as §4.1 of the spec words it (for comparison with
gather_parts): a node with child parts contributes no direct payload but
recurses into each child, concatenating results in order; a leaf node
yields exactly one ContentPart if it carries data (inline, or fetched
through the gateway). -/
def decode_spec (fetchAtt : String → Option String) (mid : Option String) :
    MimePayload → List (String × List Nat)
  | .mk mime body ps =>
    match ps with
    | .nil =>
      match body with
      | some b => add_part fetchAtt mid mime b
      | none => []
    | .cons p rest => decode_spec_children fetchAtt mid (.cons p rest)

/-- Children of a multipart node, each contributing only its recursive
decoding (spec §4.1: a multipart node contributes no direct payload). -/
def decode_spec_children (fetchAtt : String → Option String) (mid : Option String) :
    PayloadList → List (String × List Nat)
  | .nil => []
  | .cons p ps =>
    decode_spec fetchAtt mid p ++ decode_spec_children fetchAtt mid ps

end

mutual

/-- The spec §4.1 decoder amended as the counterexample forces: under a
multipart node, each child contributes its own direct payload (when its
body carries data) once, followed by its full recursive decoding — so
an inline leaf below a multipart node is yielded twice. A root-level
leaf is yielded once. -/
def decode_amended (fetchAtt : String → Option String) (mid : Option String) :
    MimePayload → List (String × List Nat)
  | .mk mime body ps =>
    match ps with
    | .nil =>
      match body with
      | some b => add_part fetchAtt mid mime b
      | none => []
    | .cons p rest => decode_amended_children fetchAtt mid (.cons p rest)

/-- Children of a multipart node in the amended decoder: direct payload
first, then the recursive decoding, children in provider order. -/
def decode_amended_children (fetchAtt : String → Option String) (mid : Option String) :
    PayloadList → List (String × List Nat)
  | .nil => []
  | .cons p ps =>
    (match p.body with
     | some b => add_part fetchAtt mid p.mimeType b
     | none => []) ++ decode_amended fetchAtt mid p ++ decode_amended_children fetchAtt mid ps

end

/-- The substring every actionable link must contain
(`'/update-primary-location' in href` in src/gmail_client.py). -/
def updateMarker : String := "/update-primary-location"

/-- Substring containment on char lists (model of Python `pat in s`). -/
def hasInfixAux (pat : List Char) : List Char → Bool
  | [] => pat.isEmpty
  | c :: cs => pat.isPrefixOf (c :: cs) || hasInfixAux pat cs

/-- Model of Python `pat in s` for strings. -/
def strHas (s pat : String) : Bool :=
  hasInfixAux pat.data s.data

/-- Model of Python `s.startswith(p)`. -/
def strStarts (s p : String) : Bool :=
  p.data.isPrefixOf s.data

/-- Whitespace as Python's regex `\S` complement sees it (ASCII part). -/
def pySpace (c : Char) : Bool :=
  c = ' ' || c = '\t' || c = '\n' || c = '\r' || c = '\x0b' || c = '\x0c'

/-- Length of the scheme prefix matched by `https?://` at the head of
the character list, if any. -/
def schemeLen (cs : List Char) : Option Nat :=
  if "https://".data.isPrefixOf cs then some 8
  else if "http://".data.isPrefixOf cs then some 7
  else none

/-- Model of `re.findall(r"https?://\S+", txt)`: at each position where
the scheme prefix matches and at least one non-space character follows
it, the maximal non-space run starting there is a match, and scanning
resumes after it; otherwise scanning advances one character. The fuel
argument (instantiated with the list length) keeps the recursion
structural; one unit is spent per step and every step consumes at least
one character, so it never runs out. -/
def find_urls_aux : Nat → List Char → List (List Char)
  | 0, _ => []
  | _ + 1, [] => []
  | fuel + 1, c :: cs =>
    match schemeLen (c :: cs) with
    | some n =>
      let run := (c :: cs).takeWhile (fun ch => !pySpace ch)
      if n < run.length then run :: find_urls_aux fuel ((c :: cs).drop run.length)
      else find_urls_aux fuel cs
    | none => find_urls_aux fuel cs

/-- All `https?://\S+` tokens of a text, in order. -/
def find_urls (s : String) : List String :=
  (find_urls_aux s.data.length s.data).map List.asString

/-- The trailing characters stripped from a plain-text URL match
(`url.rstrip(").,>]'\"")` in src/gmail_client.py). -/
def rstripSet (c : Char) : Bool :=
  c = ')' || c = '.' || c = ',' || c = '>' || c = ']' || c = '\x27' || c = '\x22'

/-- Model of `url.rstrip(").,>]'\"")`. -/
def pyRstrip (s : String) : String :=
  ((s.data.reverse.dropWhile rstripSet).reverse).asString

/-- The HTML bucket of extract_update_link_from_message: decoded text of
every part whose content type starts with text/html, in decode order.
`decodeBytes` models `content.decode('utf-8', errors='ignore')`, which
never fails. -/
def html_candidates (decodeBytes : List Nat → String)
    (parts : List (String × List Nat)) : List String :=
  (parts.filter (fun p => strStarts p.1 "text/html")).map (fun p => decodeBytes p.2)

/-- The plain-text bucket: parts whose content type starts with
text/plain (the elif branch, so text/html parts are excluded first). -/
def text_candidates (decodeBytes : List Nat → String)
    (parts : List (String × List Nat)) : List String :=
  (parts.filter (fun p => !strStarts p.1 "text/html" && strStarts p.1 "text/plain")).map
    (fun p => decodeBytes p.2)

/-- The HTML scan loop of extract_update_link_from_message: for each
HTML candidate in order, the anchor hrefs in document order
(`anchorsOf`, modelling BeautifulSoup's `find_all('a', href=True)`) are
scanned and the first href containing the marker is returned. -/
def scan_html (anchorsOf : String → List String) : List String → Option String
  | [] => none
  | h :: hs =>
    match (anchorsOf h).find? (fun href => strHas href updateMarker) with
    | some href => some href
    | none => scan_html anchorsOf hs

/-- The plain-text fallback loop: for each text candidate in order, the
first URL-shaped token containing the marker is returned, stripped of
trailing punctuation. -/
def scan_text : List String → Option String
  | [] => none
  | t :: ts =>
    match (find_urls t).find? (fun u => strHas u updateMarker) with
    | some u => some (pyRstrip u)
    | none => scan_text ts

/-- Model of GmailWatcher.extract_update_link_from_message on an already
gathered parts list: bucket the parts, scan all HTML parts first, then
fall back to the plain-text scan. -/
def extract_from_parts (anchorsOf : String → List String)
    (decodeBytes : List Nat → String)
    (parts : List (String × List Nat)) : Option String :=
  match scan_html anchorsOf (html_candidates decodeBytes parts) with
  | some href => some href
  | none => scan_text (text_candidates decodeBytes parts)

/-- The full extractor of src/gmail_client.py, composing the parts
gatherer with the bucketed scans. -/
def extract_update_link (anchorsOf : String → List String)
    (decodeBytes : List Nat → String) (fetchAtt : String → Option String)
    (mid : Option String) (payload : MimePayload) : Option String :=
  extract_from_parts anchorsOf decodeBytes (gather_parts fetchAtt mid payload)

/-- A fetched mail message as process_once (src/main.py) sees it: the
opaque id, the raw optional internalDate string, and the payload tree.
search_messages followed by get_message_raw on each id is modelled as
the list of fetched messages in search-return order. -/
structure Msg where
  id : String
  internalDate : Option String
  payload : MimePayload

/-- Observable outcome of one intake cycle: the returned triple of
process_once plus the cycle's observable side effects — the messages on
which link extraction was attempted, the (message, link) pairs handed
to the confirmation action (Playwright confirm, or the plain browser
open), the messages on which mark-as-read was attempted, the value of
the LAST_OPENED_LINK environment variable at cycle end, and whether the
requester result-record write was attempted. -/
structure CycleResult where
  exit_code : Nat
  actioned : Bool
  next_anchor : Option Int
  extracted : List Msg
  acted : List (Msg × String)
  markedRead : List Msg
  envAfter : Option String
  recordAttempted : Bool

/-- The anchor filter of process_once:
`anchor_ts_ms is not None and internal_ms <= anchor_ts_ms`. -/
def anchorSkip : Option Int → Int → Bool
  | none, _ => false
  | some a, t => decide (t ≤ a)

/-- The candidate loop of process_once (src/main.py lines 66-133).
Parameters model the collaborators: `extractLink` is
watcher.extract_update_link_from_message, `act` is the Playwright
confirm_netflix_primary_location (`none` models a raised exception,
caught and leaving success False), `last` is os.getenv on
LAST_OPENED_LINK at cycle start, and `now` is the value _now_ms()
returns at action completion. In the non-auto_click branch
open_update_link opens the browser (always treated as success) and
writes LAST_OPENED_LINK only when open_once is set. The debug dump and
the log lines have no observable effect and are not modelled; the
requester-record write and mark-as-read are best-effort side effects
recorded as trace fields. -/
def process_loop (extractLink : Msg → Option String) (act : String → Option Bool)
    (open_once auto_click : Bool) (anchor_ts_ms : Option Int)
    (last : Option String) (now : Int) : List Msg → CycleResult
  | [] =>
    { exit_code := 2, actioned := false, next_anchor := none,
      extracted := [], acted := [], markedRead := [],
      envAfter := last, recordAttempted := false }
  | m :: rest =>
    if anchorSkip anchor_ts_ms (parse_internal_date m.internalDate) then
      process_loop extractLink act open_once auto_click anchor_ts_ms last now rest
    else
      match extractLink m with
      | none =>
        let r := process_loop extractLink act open_once auto_click anchor_ts_ms last now rest
        { r with extracted := m :: r.extracted }
      | some link =>
        if open_once = true ∧ last = some link then
          let r := process_loop extractLink act open_once auto_click anchor_ts_ms last now rest
          { r with extracted := m :: r.extracted }
        else
          let success := if auto_click then (act link).getD false else true
          { exit_code := 0, actioned := true, next_anchor := some now,
            extracted := [m], acted := [(m, link)], markedRead := [m],
            envAfter := if auto_click then last
                        else if open_once then some link else last,
            recordAttempted := success }

/-- Model of process_once (src/main.py): empty search result returns
exit code 1 immediately; otherwise the candidate loop runs and falls
through to exit code 2 when no candidate is acted on. -/
def process_once (extractLink : Msg → Option String) (act : String → Option Bool)
    (open_once auto_click : Bool) (anchor_ts_ms : Option Int)
    (last : Option String) (now : Int) (msgs : List Msg) : CycleResult :=
  if msgs.isEmpty then
    { exit_code := 1, actioned := false, next_anchor := none,
      extracted := [], acted := [], markedRead := [],
      envAfter := last, recordAttempted := false }
  else
    process_loop extractLink act open_once auto_click anchor_ts_ms last now msgs

/-- One poll tick of the watch loop: the batch the search would return
and the time an action completed during this tick would carry. -/
structure Tick where
  msgs : List Msg
  now : Int

/-- One iteration of watch_loop (src/main.py lines 140-159) and of
WatcherThread.run (src/tray_app.py lines 124-141): run the cycle with
the current anchor, and replace the anchor only when the cycle reports
clicked with a present new anchor. Returns the next (anchor, env)
state. -/
def watch_step (extractLink : Msg → Option String) (act : String → Option Bool)
    (open_once auto_click : Bool) (anchor : Int) (env : Option String)
    (t : Tick) : Int × Option String :=
  let r := process_once extractLink act open_once auto_click (some anchor) env t.now t.msgs
  (if r.actioned = true ∧ r.next_anchor ≠ none then r.next_anchor.getD anchor else anchor,
   r.envAfter)

/-- The sequence of anchor values passed to successive cycles of a
watch session starting from `anchor` (initialized to _now_ms() at
session start in the source). -/
def watch_anchors (extractLink : Msg → Option String) (act : String → Option Bool)
    (open_once auto_click : Bool) (anchor : Int) (env : Option String) :
    List Tick → List Int
  | [] => []
  | t :: ts =>
    let s := watch_step extractLink act open_once auto_click anchor env t
    anchor :: watch_anchors extractLink act open_once auto_click s.1 s.2 ts


/-- Unfolding: a stale candidate (anchor set, timestamp at most the
anchor) is skipped and the loop continues unchanged. -/
theorem process_loop_cons_skip (eL : Msg → Option String) (act : String → Option Bool)
    (oo ac : Bool) (anchor : Option Int) (last : Option String) (now : Int)
    (m : Msg) (rest : List Msg)
    (h1 : anchorSkip anchor (parse_internal_date m.internalDate) = true) :
    process_loop eL act oo ac anchor last now (m :: rest) =
      process_loop eL act oo ac anchor last now rest := by
  simp [process_loop, h1]

/-- Unfolding: a candidate that passes the anchor filter but yields no
link is recorded as extracted and the loop continues. -/
theorem process_loop_cons_nolink (eL : Msg → Option String) (act : String → Option Bool)
    (oo ac : Bool) (anchor : Option Int) (last : Option String) (now : Int)
    (m : Msg) (rest : List Msg)
    (h1 : anchorSkip anchor (parse_internal_date m.internalDate) = false)
    (he : eL m = none) :
    process_loop eL act oo ac anchor last now (m :: rest) =
      { process_loop eL act oo ac anchor last now rest with
        extracted := m :: (process_loop eL act oo ac anchor last now rest).extracted } := by
  simp [process_loop, h1, he]

/-- Unfolding: a candidate whose link equals the remembered last opened
link while open_once is active is skipped after extraction. -/
theorem process_loop_cons_dedup (eL : Msg → Option String) (act : String → Option Bool)
    (oo ac : Bool) (anchor : Option Int) (last : Option String) (now : Int)
    (m : Msg) (rest : List Msg) (link : String)
    (h1 : anchorSkip anchor (parse_internal_date m.internalDate) = false)
    (he : eL m = some link) (h2 : oo = true ∧ last = some link) :
    process_loop eL act oo ac anchor last now (m :: rest) =
      { process_loop eL act oo ac anchor last now rest with
        extracted := m :: (process_loop eL act oo ac anchor last now rest).extracted } := by
  simp [process_loop, h1, he, h2]

/-- Unfolding: a candidate that passes the anchor filter, yields a link
and is not dedup-skipped is acted on and the loop returns immediately,
regardless of the action's success. -/
theorem process_loop_cons_act (eL : Msg → Option String) (act : String → Option Bool)
    (oo ac : Bool) (anchor : Option Int) (last : Option String) (now : Int)
    (m : Msg) (rest : List Msg) (link : String)
    (h1 : anchorSkip anchor (parse_internal_date m.internalDate) = false)
    (he : eL m = some link) (h2 : ¬(oo = true ∧ last = some link)) :
    process_loop eL act oo ac anchor last now (m :: rest) =
      { exit_code := 0, actioned := true, next_anchor := some now,
        extracted := [m], acted := [(m, link)], markedRead := [m],
        envAfter := if ac = true then last
                    else if oo = true then some link else last,
        recordAttempted := if ac = true then (act link).getD false else true } := by
  simp [process_loop, h1, he, h2]

/-- Every run of the candidate loop ends in one of exactly two shapes:
the fall-through failure (exit 2, nothing acted, env untouched) or the
first-success return (exit 0, exactly one acted pair, that message
marked read, env updated only in the plain-open/open_once mode). -/
theorem process_loop_cases (eL : Msg → Option String) (act : String → Option Bool)
    (oo ac : Bool) (anchor : Option Int) (last : Option String) (now : Int) :
    ∀ msgs : List Msg,
      ((process_loop eL act oo ac anchor last now msgs).exit_code = 2 ∧
        (process_loop eL act oo ac anchor last now msgs).actioned = false ∧
        (process_loop eL act oo ac anchor last now msgs).next_anchor = none ∧
        (process_loop eL act oo ac anchor last now msgs).acted = [] ∧
        (process_loop eL act oo ac anchor last now msgs).markedRead = [] ∧
        (process_loop eL act oo ac anchor last now msgs).envAfter = last) ∨
      (∃ m l,
        (process_loop eL act oo ac anchor last now msgs).exit_code = 0 ∧
        (process_loop eL act oo ac anchor last now msgs).actioned = true ∧
        (process_loop eL act oo ac anchor last now msgs).next_anchor = some now ∧
        (process_loop eL act oo ac anchor last now msgs).acted = [(m, l)] ∧
        (process_loop eL act oo ac anchor last now msgs).markedRead = [m] ∧
        (process_loop eL act oo ac anchor last now msgs).envAfter =
          (if ac = true then last else if oo = true then some l else last)) := by
  intro msgs
  induction msgs with
  | nil => left; simp [process_loop]
  | cons m rest ih =>
    by_cases h1 : anchorSkip anchor (parse_internal_date m.internalDate) = true
    · rw [process_loop_cons_skip eL act oo ac anchor last now m rest h1]
      exact ih
    · rw [Bool.not_eq_true] at h1
      rcases he : eL m with _ | link
      · rw [process_loop_cons_nolink eL act oo ac anchor last now m rest h1 he]
        rcases ih with ⟨h2, h3, h4, h5, h6, h7⟩ | ⟨m', l', h2, h3, h4, h5, h6, h7⟩
        · exact Or.inl ⟨h2, h3, h4, h5, h6, h7⟩
        · exact Or.inr ⟨m', l', h2, h3, h4, h5, h6, h7⟩
      · by_cases h2 : oo = true ∧ last = some link
        · rw [process_loop_cons_dedup eL act oo ac anchor last now m rest link h1 he h2]
          rcases ih with ⟨h3, h4, h5, h6, h7, h8⟩ | ⟨m', l', h3, h4, h5, h6, h7, h8⟩
          · exact Or.inl ⟨h3, h4, h5, h6, h7, h8⟩
          · exact Or.inr ⟨m', l', h3, h4, h5, h6, h7, h8⟩
        · rw [process_loop_cons_act eL act oo ac anchor last now m rest link h1 he h2]
          exact Or.inr ⟨m, link, rfl, rfl, rfl, rfl, rfl, rfl⟩

/-- Link extraction is only attempted on messages of the batch. -/
theorem process_loop_extracted_mem (eL : Msg → Option String) (act : String → Option Bool)
    (oo ac : Bool) (anchor : Option Int) (last : Option String) (now : Int) :
    ∀ (msgs : List Msg) (m : Msg),
      m ∈ (process_loop eL act oo ac anchor last now msgs).extracted → m ∈ msgs := by
  intro msgs
  induction msgs with
  | nil => intro m h; simp [process_loop] at h
  | cons m' rest ih =>
    intro m h
    by_cases h1 : anchorSkip anchor (parse_internal_date m'.internalDate) = true
    · rw [process_loop_cons_skip eL act oo ac anchor last now m' rest h1] at h
      exact List.mem_cons_of_mem _ (ih m h)
    · rw [Bool.not_eq_true] at h1
      rcases he : eL m' with _ | link
      · rw [process_loop_cons_nolink eL act oo ac anchor last now m' rest h1 he] at h
        rcases List.mem_cons.mp h with h | h
        · exact h ▸ List.mem_cons_self _ _
        · exact List.mem_cons_of_mem _ (ih m h)
      · by_cases h2 : oo = true ∧ last = some link
        · rw [process_loop_cons_dedup eL act oo ac anchor last now m' rest link h1 he h2] at h
          rcases List.mem_cons.mp h with h | h
          · exact h ▸ List.mem_cons_self _ _
          · exact List.mem_cons_of_mem _ (ih m h)
        · rw [process_loop_cons_act eL act oo ac anchor last now m' rest link h1 he h2] at h
          rcases List.mem_cons.mp h with h | h
          · exact h ▸ List.mem_cons_self _ _
          · simp at h

/-- The confirmation action is only attempted on messages of the batch. -/
theorem process_loop_acted_mem (eL : Msg → Option String) (act : String → Option Bool)
    (oo ac : Bool) (anchor : Option Int) (last : Option String) (now : Int) :
    ∀ (msgs : List Msg) (m : Msg) (l : String),
      (m, l) ∈ (process_loop eL act oo ac anchor last now msgs).acted → m ∈ msgs := by
  intro msgs
  induction msgs with
  | nil => intro m l h; simp [process_loop] at h
  | cons m' rest ih =>
    intro m l h
    by_cases h1 : anchorSkip anchor (parse_internal_date m'.internalDate) = true
    · rw [process_loop_cons_skip eL act oo ac anchor last now m' rest h1] at h
      exact List.mem_cons_of_mem _ (ih m l h)
    · rw [Bool.not_eq_true] at h1
      rcases he : eL m' with _ | link
      · rw [process_loop_cons_nolink eL act oo ac anchor last now m' rest h1 he] at h
        exact List.mem_cons_of_mem _ (ih m l h)
      · by_cases h2 : oo = true ∧ last = some link
        · rw [process_loop_cons_dedup eL act oo ac anchor last now m' rest link h1 he h2] at h
          exact List.mem_cons_of_mem _ (ih m l h)
        · rw [process_loop_cons_act eL act oo ac anchor last now m' rest link h1 he h2] at h
          simp at h
          exact h.1 ▸ List.mem_cons_self _ _

/-- Core stale-suppression lemma: when the anchor is set, a message of
the batch whose parsed receipt timestamp is at most the anchor is never
link-extracted and never handed to the confirmation action. -/
theorem process_loop_stale (eL : Msg → Option String) (act : String → Option Bool)
    (oo ac : Bool) (a : Int) (last : Option String) (now : Int) :
    ∀ (msgs : List Msg) (m : Msg), m ∈ msgs →
      parse_internal_date m.internalDate ≤ a →
      m ∉ (process_loop eL act oo ac (some a) last now msgs).extracted ∧
      ∀ l, (m, l) ∉ (process_loop eL act oo ac (some a) last now msgs).acted := by
  intro msgs
  induction msgs with
  | nil => intro m hm; simp at hm
  | cons m' rest ih =>
    intro m hm hts
    by_cases h1 : anchorSkip (some a) (parse_internal_date m'.internalDate) = true
    · rw [process_loop_cons_skip eL act oo ac (some a) last now m' rest h1]
      rcases List.mem_cons.mp hm with rfl | hmr
      · by_cases hmr : m ∈ rest
        · exact ih m hmr hts
        · constructor
          · intro hc
            exact hmr (process_loop_extracted_mem eL act oo ac (some a) last now rest m hc)
          · intro l hc
            exact hmr (process_loop_acted_mem eL act oo ac (some a) last now rest m l hc)
      · exact ih m hmr hts
    · rw [Bool.not_eq_true] at h1
      have hmm : m ≠ m' := by
        rintro rfl
        rw [show anchorSkip (some a) (parse_internal_date m.internalDate) = true from
          by simpa [anchorSkip] using hts] at h1
        exact Bool.true_eq_false.mp h1
      have hmr : m ∈ rest := by
        rcases List.mem_cons.mp hm with h | h
        · exact absurd h hmm
        · exact h
      rcases he : eL m' with _ | link
      · rw [process_loop_cons_nolink eL act oo ac (some a) last now m' rest h1 he]
        rcases ih m hmr hts with ⟨ihe, iha⟩
        exact ⟨by simp [List.mem_cons, hmm, ihe], iha⟩
      · by_cases h2 : oo = true ∧ last = some link
        · rw [process_loop_cons_dedup eL act oo ac (some a) last now m' rest link h1 he h2]
          rcases ih m hmr hts with ⟨ihe, iha⟩
          exact ⟨by simp [List.mem_cons, hmm, ihe], iha⟩
        · rw [process_loop_cons_act eL act oo ac (some a) last now m' rest link h1 he h2]
          refine ⟨by simp [hmm], ?_⟩
          intro l
          simp [hmm]

/-- process_once on an empty search result: exit code 1, nothing done. -/
theorem process_once_nil (eL : Msg → Option String) (act : String → Option Bool)
    (oo ac : Bool) (anchor : Option Int) (last : Option String) (now : Int) :
    process_once eL act oo ac anchor last now [] =
      { exit_code := 1, actioned := false, next_anchor := none,
        extracted := [], acted := [], markedRead := [],
        envAfter := last, recordAttempted := false } := rfl

/-- process_once on a non-empty search result runs the candidate loop. -/
theorem process_once_cons (eL : Msg → Option String) (act : String → Option Bool)
    (oo ac : Bool) (anchor : Option Int) (last : Option String) (now : Int)
    (m : Msg) (rest : List Msg) :
    process_once eL act oo ac anchor last now (m :: rest) =
      process_loop eL act oo ac anchor last now (m :: rest) := rfl

mutual

/-- The gatherer agrees everywhere with the amended spec decoder. -/
theorem gather_parts_eq_decode_amended (f : String → Option String) (mid : Option String) :
    ∀ t : MimePayload, gather_parts f mid t = decode_amended f mid t
  | .mk _ _ .nil => rfl
  | .mk _ _ (.cons p rest) =>
    gather_children_eq_decode_amended f mid (.cons p rest)

/-- The per-child loop agrees everywhere with the amended spec decoder's
child concatenation. -/
theorem gather_children_eq_decode_amended (f : String → Option String) (mid : Option String) :
    ∀ ps : PayloadList, gather_children f mid ps = decode_amended_children f mid ps
  | .nil => rfl
  | .cons p ps => by
    rw [show gather_children f mid (.cons p ps) =
          (match p.body with
           | some b => add_part f mid p.mimeType b
           | none => []) ++ gather_parts f mid p ++ gather_children f mid ps from rfl,
        gather_parts_eq_decode_amended f mid p,
        gather_children_eq_decode_amended f mid ps]
    rfl

end

/-- A successful HTML scan result is an anchor href of one of the HTML
candidates and contains the marker. -/
theorem scan_html_found (anchorsOf : String → List String) :
    ∀ (l : List String) (h : String), scan_html anchorsOf l = some h →
      ∃ hc ∈ l, h ∈ anchorsOf hc ∧ strHas h updateMarker = true := by
  intro l
  induction l with
  | nil => intro h hh; simp [scan_html] at hh
  | cons c cs ih =>
    intro h hh
    rcases hf : (anchorsOf c).find? (fun href => strHas href updateMarker) with _ | href
    · rw [show scan_html anchorsOf (c :: cs) =
            (match (anchorsOf c).find? (fun href => strHas href updateMarker) with
             | some href => some href
             | none => scan_html anchorsOf cs) from rfl, hf] at hh
      obtain ⟨hc, hmem, hrest⟩ := ih h hh
      exact ⟨hc, List.mem_cons_of_mem _ hmem, hrest⟩
    · rw [show scan_html anchorsOf (c :: cs) =
            (match (anchorsOf c).find? (fun href => strHas href updateMarker) with
             | some href => some href
             | none => scan_html anchorsOf cs) from rfl, hf] at hh
      cases hh
      refine ⟨c, List.mem_cons_self _ _, List.mem_of_find?_eq_some hf, ?_⟩
      have hp := List.find?_some hf
      simpa using hp

/-- The anchor produced by one watch iteration is either unchanged, or —
exactly when the cycle reported an action — the action-completion time
of that tick. -/
theorem watch_step_anchor_cases (eL : Msg → Option String) (act : String → Option Bool)
    (oo ac : Bool) (a : Int) (e : Option String) (t : Tick) :
    (watch_step eL act oo ac a e t).1 = a ∨
    ((process_once eL act oo ac (some a) e t.now t.msgs).actioned = true ∧
      (watch_step eL act oo ac a e t).1 = t.now) := by
  rcases ht : t.msgs with _ | ⟨m, rest⟩
  · left
    simp [watch_step, ht, process_once]
  · rcases process_loop_cases eL act oo ac (some a) e t.now (m :: rest) with
      ⟨_, h2, h3, _, _, _⟩ | ⟨m', l', _, h2, h3, _, _, _⟩
    · left
      simp [watch_step, ht, process_once_cons, h2]
    · right
      refine ⟨by simp [ht, process_once_cons, h2], ?_⟩
      simp [watch_step, ht, process_once_cons, h2, h3]

/-- Monotonicity of the anchor sequence of a watch session, given that
the session's clock readings are themselves non-decreasing and start at
or after the initial anchor. -/
theorem watch_anchors_chain (eL : Msg → Option String) (act : String → Option Bool)
    (oo ac : Bool) :
    ∀ (ticks : List Tick) (anchor : Int) (env : Option String),
      List.Chain' (· ≤ ·) (anchor :: ticks.map Tick.now) →
      List.Chain' (· ≤ ·) (watch_anchors eL act oo ac anchor env ticks) := by
  intro ticks
  induction ticks with
  | nil => intro anchor env _; simp [watch_anchors]
  | cons t ts ih =>
    intro anchor env h
    rw [List.map_cons, List.chain'_cons] at h
    obtain ⟨h1, h2⟩ := h
    rw [List.chain'_cons'] at h2
    have hstep := watch_step_anchor_cases eL act oo ac anchor env t
    have ha : anchor ≤ (watch_step eL act oo ac anchor env t).1 := by
      rcases hstep with h | ⟨_, h⟩
      · rw [h]
      · rw [h]
        exact h1
    have hle : ∀ x ∈ (List.map Tick.now ts).head?,
        (watch_step eL act oo ac anchor env t).1 ≤ x := by
      intro x hx
      have hx' := h2.1 x hx
      rcases hstep with h | ⟨_, h⟩
      · rw [h]
        exact le_trans h1 hx'
      · rw [h]
        exact hx'
    simp only [watch_anchors]
    rw [List.chain'_cons']
    constructor
    · intro x hx
      cases ts with
      | nil => simp [watch_anchors] at hx
      | cons t' ts' =>
        simp only [watch_anchors, List.head?_cons, Option.mem_def, Option.some.injEq] at hx
        rw [← hx]
        exact ha
    · refine ih (watch_step eL act oo ac anchor env t).1 (watch_step eL act oo ac anchor env t).2 ?_
      rw [List.chain'_cons']
      exact ⟨hle, h2.2⟩

/-- C10: every return value of run_once has one of exactly three
shapes — (exit 0, actioned, next_anchor present), (exit 1, not
actioned, next_anchor absent), (exit 2, not actioned, next_anchor
absent) — and next_anchor is present iff actioned iff exit code 0. -/
theorem run_once_result_shapes (eL : Msg → Option String) (act : String → Option Bool)
    (oo ac : Bool) (anchor : Option Int) (last : Option String) (now : Int)
    (msgs : List Msg) :
    (((process_once eL act oo ac anchor last now msgs).exit_code = 0 ∧
       (process_once eL act oo ac anchor last now msgs).actioned = true ∧
       (process_once eL act oo ac anchor last now msgs).next_anchor = some now) ∨
     ((process_once eL act oo ac anchor last now msgs).exit_code = 1 ∧
       (process_once eL act oo ac anchor last now msgs).actioned = false ∧
       (process_once eL act oo ac anchor last now msgs).next_anchor = none) ∨
     ((process_once eL act oo ac anchor last now msgs).exit_code = 2 ∧
       (process_once eL act oo ac anchor last now msgs).actioned = false ∧
       (process_once eL act oo ac anchor last now msgs).next_anchor = none)) ∧
    ((process_once eL act oo ac anchor last now msgs).next_anchor.isSome = true ↔
      (process_once eL act oo ac anchor last now msgs).actioned = true) ∧
    ((process_once eL act oo ac anchor last now msgs).actioned = true ↔
      (process_once eL act oo ac anchor last now msgs).exit_code = 0) := by
  cases msgs with
  | nil =>
    refine ⟨Or.inr (Or.inl ⟨rfl, rfl, rfl⟩), ?_, ?_⟩
    · simp [process_once_nil]
    · simp [process_once_nil]
  | cons m rest =>
    rcases process_loop_cases eL act oo ac anchor last now (m :: rest) with
      ⟨h1, h2, h3, _, _, _⟩ | ⟨m', l', h1, h2, h3, _, _, _⟩
    · refine ⟨Or.inr (Or.inr ⟨?_, ?_, ?_⟩), ?_, ?_⟩
      · rw [process_once_cons]; exact h1
      · rw [process_once_cons]; exact h2
      · rw [process_once_cons]; exact h3
      · simp [process_once_cons, h1, h2, h3]
      · simp [process_once_cons, h1, h2, h3]
    · refine ⟨Or.inl ⟨?_, ?_, ?_⟩, ?_, ?_⟩
      · rw [process_once_cons]; exact h1
      · rw [process_once_cons]; exact h2
      · rw [process_once_cons]; exact h3
      · simp [process_once_cons, h1, h2, h3]
      · simp [process_once_cons, h1, h2, h3]

/-- C3: whenever the anchor is set, every fetched candidate whose
parsed receipt timestamp is at most the anchor is skipped before link
extraction and is never handed to the Confirmation Actor. -/
theorem stale_suppression (eL : Msg → Option String) (act : String → Option Bool)
    (oo ac : Bool) (a : Int) (last : Option String) (now : Int)
    (msgs : List Msg) (m : Msg) (hm : m ∈ msgs)
    (hts : parse_internal_date m.internalDate ≤ a) :
    m ∉ (process_once eL act oo ac (some a) last now msgs).extracted ∧
    ∀ l, (m, l) ∉ (process_once eL act oo ac (some a) last now msgs).acted := by
  cases msgs with
  | nil => simp at hm
  | cons m' rest =>
    rw [process_once_cons]
    exact process_loop_stale eL act oo ac a last now (m' :: rest) m hm hts

theorem stale_suppression_witness :
    (⟨"m1", some "100", .mk "" none .nil⟩ : Msg) ∉
      (process_once (fun _ => some "https://x/update-primary-location/abc")
        (fun _ => some true) false true (some 150) none 999
        [⟨"m1", some "100", .mk "" none .nil⟩]).extracted :=
  (stale_suppression (fun _ => some "https://x/update-primary-location/abc")
    (fun _ => some true) false true 150 none 999
    [⟨"m1", some "100", .mk "" none .nil⟩] ⟨"m1", some "100", .mk "" none .nil⟩
    (List.mem_singleton.mpr rfl) (by decide)).1

/-- C9: a missing or unparseable internalDate is treated as timestamp
0, so whenever an anchor ≥ 0 is set such a message is always skipped by
the anchor filter and is never link-extracted or acted on. -/
theorem unparseable_date_skipped (eL : Msg → Option String) (act : String → Option Bool)
    (oo ac : Bool) (a : Int) (last : Option String) (now : Int)
    (msgs : List Msg) (m : Msg) (hm : m ∈ msgs)
    (hbad : m.internalDate = none ∨ ∃ s, m.internalDate = some s ∧ pyParseInt s = none)
    (ha : 0 ≤ a) :
    parse_internal_date m.internalDate = 0 ∧
    m ∉ (process_once eL act oo ac (some a) last now msgs).extracted ∧
    ∀ l, (m, l) ∉ (process_once eL act oo ac (some a) last now msgs).acted := by
  have h0 : parse_internal_date m.internalDate = 0 := by
    rcases hbad with h | ⟨s, hs, hp⟩
    · rw [h]
      rfl
    · rw [hs]
      simp [parse_internal_date, hp]
  have hts : parse_internal_date m.internalDate ≤ a := by
    rw [h0]
    exact ha
  cases msgs with
  | nil => simp at hm
  | cons m' rest =>
    rw [process_once_cons]
    exact ⟨h0, process_loop_stale eL act oo ac a last now (m' :: rest) m hm hts⟩

theorem unparseable_date_skipped_witness :
    parse_internal_date (some "notanumber") = 0 ∧
    (⟨"m1", some "notanumber", .mk "" none .nil⟩ : Msg) ∉
      (process_once (fun _ => some "https://x/update-primary-location/abc")
        (fun _ => some true) false true (some 0) none 999
        [⟨"m1", some "notanumber", .mk "" none .nil⟩]).extracted :=
  ⟨(unparseable_date_skipped (fun _ => some "https://x/update-primary-location/abc")
      (fun _ => some true) false true 0 none 999
      [⟨"m1", some "notanumber", .mk "" none .nil⟩]
      ⟨"m1", some "notanumber", .mk "" none .nil⟩ (List.mem_singleton.mpr rfl)
      (Or.inr ⟨"notanumber", rfl, by decide⟩) (by decide)).1,
   (unparseable_date_skipped (fun _ => some "https://x/update-primary-location/abc")
      (fun _ => some true) false true 0 none 999
      [⟨"m1", some "notanumber", .mk "" none .nil⟩]
      ⟨"m1", some "notanumber", .mk "" none .nil⟩ (List.mem_singleton.mpr rfl)
      (Or.inr ⟨"notanumber", rfl, by decide⟩) (by decide)).2.1⟩

/-- C5 (amended): when the search returns exactly one candidate whose
receipt timestamp is at most the anchor, run_once skips it and returns
exit_code=2 with actioned=false — code 2 meaning candidates were
present but none yielded an actionable link; code 1 is produced only
when the search itself returns no candidates. -/
theorem anchor_skip_single_candidate (eL : Msg → Option String)
    (act : String → Option Bool) (oo ac : Bool) (a : Int)
    (last : Option String) (now : Int) (m : Msg)
    (hts : parse_internal_date m.internalDate ≤ a) :
    process_once eL act oo ac (some a) last now [m] =
      { exit_code := 2, actioned := false, next_anchor := none,
        extracted := [], acted := [], markedRead := [],
        envAfter := last, recordAttempted := false } := by
  have h1 : anchorSkip (some a) (parse_internal_date m.internalDate) = true := by
    simpa [anchorSkip] using hts
  rw [process_once_cons, process_loop_cons_skip eL act oo ac (some a) last now m [] h1]
  rfl

theorem anchor_skip_single_candidate_witness :
    process_once (fun _ => some "https://x/update-primary-location/abc")
        (fun _ => some true) false false (some 150) none 999
        [⟨"m1", some "100", .mk "" none .nil⟩] =
      { exit_code := 2, actioned := false, next_anchor := none,
        extracted := [], acted := [], markedRead := [],
        envAfter := none, recordAttempted := false } :=
  anchor_skip_single_candidate (fun _ => some "https://x/update-primary-location/abc")
    (fun _ => some true) false false 150 none 999
    ⟨"m1", some "100", .mk "" none .nil⟩ (by decide)

/-- C5 counterexample: a single candidate at ts=100 with anchor=150 is
skipped, but the code returns exit code 2, not the exit code 1 the
claim states. -/
theorem anchor_skip_exit_cex :
    (process_once (fun _ => some "https://x/update-primary-location/abc")
        (fun _ => some true) false false (some 150) none 999
        [⟨"m2", some "100", .mk "" none .nil⟩]).exit_code = 2 ∧
    (process_once (fun _ => some "https://x/update-primary-location/abc")
        (fun _ => some true) false false (some 150) none 999
        [⟨"m2", some "100", .mk "" none .nil⟩]).exit_code ≠ 1 ∧
    (process_once (fun _ => some "https://x/update-primary-location/abc")
        (fun _ => some true) false false (some 150) none 999
        [⟨"m2", some "100", .mk "" none .nil⟩]).actioned = false := by
  refine ⟨rfl, by decide, rfl⟩

/-- C1 (amended): when the first eligible candidate (passes the anchor
filter, yields a link, is not dedup-skipped) is processed in auto-click
mode and the Confirmation Actor raises (modelled act = none) or returns
false, process_once nevertheless returns exit_code=0, actioned=true and
a fresh next_anchor, and still attempts to mark that message as read;
only the requester result-record write is suppressed. -/
theorem actor_failure_still_actions (eL : Msg → Option String)
    (act : String → Option Bool) (oo : Bool) (anchor : Option Int)
    (last : Option String) (now : Int) (m : Msg) (rest : List Msg) (l : String)
    (h1 : anchorSkip anchor (parse_internal_date m.internalDate) = false)
    (he : eL m = some l) (h2 : ¬(oo = true ∧ last = some l))
    (hact : act l ≠ some true) :
    process_once eL act oo true anchor last now (m :: rest) =
      { exit_code := 0, actioned := true, next_anchor := some now,
        extracted := [m], acted := [(m, l)], markedRead := [m],
        envAfter := last, recordAttempted := false } := by
  rw [process_once_cons,
    process_loop_cons_act eL act oo true anchor last now m rest l h1 he h2]
  have hs : (act l).getD false = false := by
    rcases h : act l with _ | b
    · rfl
    · cases b
      · rfl
      · exact absurd h hact
  simp [hs]

theorem actor_failure_still_actions_witness :
    process_once (fun _ => some "L") (fun _ => none) false true (some 50) none 777
        [⟨"m1", some "100", .mk "" none .nil⟩] =
      { exit_code := 0, actioned := true, next_anchor := some 777,
        extracted := [⟨"m1", some "100", .mk "" none .nil⟩],
        acted := [(⟨"m1", some "100", .mk "" none .nil⟩, "L")],
        markedRead := [⟨"m1", some "100", .mk "" none .nil⟩],
        envAfter := none, recordAttempted := false } :=
  actor_failure_still_actions (fun _ => some "L") (fun _ => none) false (some 50) none 777
    ⟨"m1", some "100", .mk "" none .nil⟩ [] "L" (by decide) rfl (by simp) (by decide)

/-- C1 counterexample: with the actor returning false for the only
candidate's link, run_once still returns exit 0 / actioned / fresh
anchor and still marks the message as read, contrary to the claim. -/
theorem actor_failure_cex :
    (process_once (fun _ => some "L") (fun _ => some false) false true (some 50) none 777
        [⟨"m1", some "100", .mk "" none .nil⟩]).exit_code = 0 ∧
    (process_once (fun _ => some "L") (fun _ => some false) false true (some 50) none 777
        [⟨"m1", some "100", .mk "" none .nil⟩]).actioned = true ∧
    (process_once (fun _ => some "L") (fun _ => some false) false true (some 50) none 777
        [⟨"m1", some "100", .mk "" none .nil⟩]).next_anchor = some 777 ∧
    (process_once (fun _ => some "L") (fun _ => some false) false true (some 50) none 777
        [⟨"m1", some "100", .mk "" none .nil⟩]).markedRead =
      [⟨"m1", some "100", .mk "" none .nil⟩] :=
  ⟨rfl, rfl, rfl, rfl⟩

/-- C6 (amended): a cycle never clears LAST_OPENED_LINK, and on a
successful action it overwrites it with the acted link only when the
action mode is plain browser-open (auto_click disabled) and open_once
is enabled; in auto-click mode, and in plain-open mode without
open_once, the value is left unchanged even after a successful
action. -/
theorem last_opened_link_update_policy (eL : Msg → Option String)
    (act : String → Option Bool) (oo ac : Bool) (anchor : Option Int)
    (last : Option String) (now : Int) (msgs : List Msg) :
    ((process_once eL act oo ac anchor last now msgs).acted = [] →
      (process_once eL act oo ac anchor last now msgs).envAfter = last) ∧
    (∀ m l, (process_once eL act oo ac anchor last now msgs).acted = [(m, l)] →
      (process_once eL act oo ac anchor last now msgs).envAfter =
        (if ac = true then last else if oo = true then some l else last)) := by
  cases msgs with
  | nil =>
    constructor
    · intro _
      rfl
    · intro m l h
      rw [process_once_nil] at h
      simp at h
  | cons m0 rest =>
    rcases process_loop_cases eL act oo ac anchor last now (m0 :: rest) with
      ⟨_, _, _, h5, _, h7⟩ | ⟨m', l', _, _, _, h5, _, h7⟩
    · constructor
      · intro _
        rw [process_once_cons]
        exact h7
      · intro m l h
        rw [process_once_cons, h5] at h
        simp at h
    · constructor
      · intro h
        rw [process_once_cons, h5] at h
        simp at h
      · intro m l h
        rw [process_once_cons, h5] at h
        have hml : m' = m ∧ l' = l := by simpa using h
        rw [process_once_cons, h7, hml.2]

theorem last_opened_link_update_policy_witness :
    (process_once (fun _ => some "L") (fun _ => some true) true false (some 50) none 777
        [⟨"m1", some "100", .mk "" none .nil⟩]).envAfter = some "L" := by
  have h := (last_opened_link_update_policy (fun _ => some "L") (fun _ => some true)
      true false (some 50) none 777 [⟨"m1", some "100", .mk "" none .nil⟩]).2
      ⟨"m1", some "100", .mk "" none .nil⟩ "L" rfl
  simpa using h

/-- C6 counterexample: a successful auto-click action does not
overwrite LAST_OPENED_LINK — it stays empty — contrary to the claim
that it is overwritten on every successful action in every mode. -/
theorem last_opened_link_not_updated_cex :
    (process_once (fun _ => some "L") (fun _ => some true) false true (some 50) none 777
        [⟨"m3", some "100", .mk "" none .nil⟩]).actioned = true ∧
    (process_once (fun _ => some "L") (fun _ => some true) false true (some 50) none 777
        [⟨"m3", some "100", .mk "" none .nil⟩]).acted =
      [(⟨"m3", some "100", .mk "" none .nil⟩, "L")] ∧
    (process_once (fun _ => some "L") (fun _ => some true) false true (some 50) none 777
        [⟨"m3", some "100", .mk "" none .nil⟩]).envAfter = none :=
  ⟨rfl, rfl, rfl⟩

/-- C7: within one cycle at most one candidate is ever acted on, and
when the first candidate of the batch is eligible (passes the anchor
filter, yields a link, is not dedup-skipped) the cycle acts on it and
returns immediately: later candidates — in particular a third candidate
that also carries an actionable link — are never even link-extracted. -/
theorem first_success_wins (eL : Msg → Option String) (act : String → Option Bool)
    (oo ac : Bool) (anchor : Option Int) (last : Option String) (now : Int) :
    (∀ msgs, (process_once eL act oo ac anchor last now msgs).acted.length ≤ 1) ∧
    (∀ (m1 m2 m3 : Msg) (rest : List Msg) (l1 l3 : String),
      anchorSkip anchor (parse_internal_date m1.internalDate) = false →
      eL m1 = some l1 → ¬(oo = true ∧ last = some l1) → eL m3 = some l3 →
      (process_once eL act oo ac anchor last now (m1 :: m2 :: m3 :: rest)).acted =
        [(m1, l1)] ∧
      (process_once eL act oo ac anchor last now (m1 :: m2 :: m3 :: rest)).extracted =
        [m1]) := by
  constructor
  · intro msgs
    cases msgs with
    | nil => simp [process_once_nil]
    | cons m rest =>
      rcases process_loop_cases eL act oo ac anchor last now (m :: rest) with
        ⟨_, _, _, h5, _, _⟩ | ⟨m', l', _, _, _, h5, _, _⟩
      · rw [process_once_cons, h5]
        simp
      · rw [process_once_cons, h5]
        simp
  · intro m1 m2 m3 rest l1 l3 h1 he1 h2 _
    rw [process_once_cons,
      process_loop_cons_act eL act oo ac anchor last now m1 (m2 :: m3 :: rest) l1 h1 he1 h2]
    exact ⟨rfl, rfl⟩

theorem first_success_wins_witness :
    (process_once (fun _ => some "https://x/update-primary-location/a")
        (fun _ => some true) false true (some 50) none 777
        [⟨"m1", some "100", .mk "" none .nil⟩, ⟨"m2", some "90", .mk "" none .nil⟩,
          ⟨"m3", some "110", .mk "" none .nil⟩]).acted =
      [(⟨"m1", some "100", .mk "" none .nil⟩, "https://x/update-primary-location/a")] :=
  ((first_success_wins (fun _ => some "https://x/update-primary-location/a")
      (fun _ => some true) false true (some 50) none 777).2
    ⟨"m1", some "100", .mk "" none .nil⟩ ⟨"m2", some "90", .mk "" none .nil⟩
    ⟨"m3", some "110", .mk "" none .nil⟩ [] "https://x/update-primary-location/a"
    "https://x/update-primary-location/a" (by decide) rfl (by simp) rfl).1

/-- C2: for any watch session whose clock readings are non-decreasing
and start at or after the initial anchor, the anchor passed to cycle
n+1 is at least the anchor passed to cycle n; moreover one iteration
replaces the anchor only when the cycle reported a successful action,
and then only with the action-completion time of that tick. -/
theorem watch_anchor_monotone (eL : Msg → Option String) (act : String → Option Bool)
    (oo ac : Bool) (anchor : Int) (env : Option String) (ticks : List Tick)
    (hchain : List.Chain' (· ≤ ·) (anchor :: ticks.map Tick.now)) :
    List.Chain' (· ≤ ·) (watch_anchors eL act oo ac anchor env ticks) ∧
    (∀ (a : Int) (e : Option String) (t : Tick),
      (watch_step eL act oo ac a e t).1 = a ∨
      ((process_once eL act oo ac (some a) e t.now t.msgs).actioned = true ∧
        (watch_step eL act oo ac a e t).1 = t.now)) :=
  ⟨watch_anchors_chain eL act oo ac ticks anchor env hchain,
   fun a e t => watch_step_anchor_cases eL act oo ac a e t⟩

theorem watch_anchor_monotone_witness :
    List.Chain' (· ≤ ·)
      (watch_anchors (fun _ => some "https://x/update-primary-location/a")
        (fun _ => some true) false false 10 none
        [⟨[⟨"m1", some "15", .mk "" none .nil⟩], 20⟩, ⟨[], 30⟩]) :=
  (watch_anchor_monotone (fun _ => some "https://x/update-primary-location/a")
    (fun _ => some true) false false 10 none
    [⟨[⟨"m1", some "15", .mk "" none .nil⟩], 20⟩, ⟨[], 30⟩]
    (by
      simp only [List.map_cons, List.map_nil]
      exact List.Chain'.cons (by norm_num)
        (List.Chain'.cons (by norm_num) (List.chain'_singleton 30)))).1

/-- C8: when the gathered parts contain an HTML part with an anchor
href containing the target marker (h being the first such href in
decode/document order) and also a plain-text part with a matching bare
URL, the extractor returns the HTML-derived href h: all HTML parts are
scanned before any plain-text part is consulted. -/
theorem html_precedence (anchorsOf : String → List String)
    (decodeBytes : List Nat → String) (parts : List (String × List Nat)) (h : String)
    (hH : scan_html anchorsOf (html_candidates decodeBytes parts) = some h)
    (_hT : ∃ tc ∈ text_candidates decodeBytes parts, ∃ u ∈ find_urls tc,
      strHas u updateMarker = true) :
    extract_from_parts anchorsOf decodeBytes parts = some h ∧
    ∃ hc ∈ html_candidates decodeBytes parts, h ∈ anchorsOf hc ∧
      strHas h updateMarker = true := by
  refine ⟨?_, scan_html_found anchorsOf (html_candidates decodeBytes parts) h hH⟩
  simp [extract_from_parts, hH]

theorem html_precedence_witness :
    extract_from_parts
      (fun s => if s = "HTMLDOC" then ["https://h/update-primary-location/x"] else [])
      (fun bs => if bs = [0] then "HTMLDOC"
                 else "see https://x/update-primary-location/q now")
      [("text/html", [0]), ("text/plain", [1])] =
      some "https://h/update-primary-location/x" :=
  (html_precedence
    (fun s => if s = "HTMLDOC" then ["https://h/update-primary-location/x"] else [])
    (fun bs => if bs = [0] then "HTMLDOC"
               else "see https://x/update-primary-location/q now")
    [("text/html", [0]), ("text/plain", [1])]
    "https://h/update-primary-location/x" (by decide)
    ⟨"see https://x/update-primary-location/q now", by decide,
      "https://x/update-primary-location/q", by decide, by decide⟩).1

/-- C4 (amended): for every message body tree the decoder returns the
pre-order part sequence of the spec decoder amended so that each child
of a multipart node first contributes its own direct payload and then
its recursive decoding — hence an inline leaf below a multipart node is
yielded twice, while a root-level leaf is yielded once; multipart nodes
without direct inline data contribute no payload of their own. -/
theorem decoder_matches_amended_spec :
    ∀ (fetchAtt : String → Option String) (mid : Option String) (t : MimePayload),
      gather_parts fetchAtt mid t = decode_amended fetchAtt mid t :=
  fun f mid t => gather_parts_eq_decode_amended f mid t

/-- C4 counterexample: a single inline text/plain leaf below a
multipart node, carrying the correctly padded base64url data "aGk="
(decoding to the two bytes of "hi"), is yielded twice by the real
decoder, while the spec decoder (decode_spec, yielding each inline leaf
exactly once) yields it once. -/
theorem decoder_duplicates_nested_leaf_cex :
    gather_parts (fun _ => none) none
        (.mk "multipart/alternative" (some ⟨none, none⟩)
          (.cons (.mk "text/plain" (some ⟨some "aGk=", none⟩) .nil) .nil)) =
      [("text/plain", [104, 105]), ("text/plain", [104, 105])] ∧
    decode_spec (fun _ => none) none
        (.mk "multipart/alternative" (some ⟨none, none⟩)
          (.cons (.mk "text/plain" (some ⟨some "aGk=", none⟩) .nil) .nil)) =
      [("text/plain", [104, 105])] :=
  ⟨by decide, by decide⟩

end NetflixConfirm
